import Mathlib

/-!
Verification of the libauth template compiler (`src/lib/template/compiler.ts`)
and the script-language compilation pipeline it delegates to.

The repository sources provide the compiler façade (`createCompiler`,
`createCompilerCommonSynchronous`, `authenticationTemplateToCompilationEnvironment`)
and an end-to-end language test suite. The language pipeline itself
(lexer, parser, resolver, bytecode generator, `compileScript`) is not part of
the provided sources, so those definitions are modelled from the specification
(§3–§4.5, §6–§7) at token granularity: the spec's `Token` data model includes
comment and whitespace tokens, which are removed before parsing.

JavaScript objects built by repeated spread (`{...all, ...more}`) are modelled
as association lists in which a later entry shadows an earlier entry with the
same key (`jsLookup` is last-wins), matching the lookup semantics of spread.
-/

/-- Part of the minimal script-number encoding: little-endian base-256 digits
of `n` (empty for 0). The first argument is fuel making the recursion
structural, so the definition evaluates inside the kernel. -/
def natToLEBytesAux : Nat → Nat → List Nat
  | 0, _ => []
  | fuel + 1, n => if n = 0 then [] else n % 256 :: natToLEBytesAux fuel (n / 256)

/-- Little-endian base-256 digits of `n`; `n` itself is always enough fuel. -/
def natToLEBytes (n : Nat) : List Nat := natToLEBytesAux n n

/-- Modelled from the spec: `bigIntToScriptNumber` of the language pipeline
(missing from the provided sources). §4.5: "Integer literals use minimal
signed script-number encoding: little-endian magnitude, fewest bytes possible,
sign communicated via the high bit of the most significant byte (append an
extra zero-sign byte if the natural top bit would otherwise be mistaken for a
sign bit)." -/
def bigIntToScriptNumber (v : Int) : List Nat :=
  if v = 0 then []
  else if 0x80 ≤ (natToLEBytes v.natAbs).getLastD 0 then
    natToLEBytes v.natAbs ++ [if v < 0 then 0x80 else 0x00]
  else if v < 0 then
    (natToLEBytes v.natAbs).dropLast ++ [(natToLEBytes v.natAbs).getLastD 0 + 0x80]
  else natToLEBytes v.natAbs

/-- Modelled from the spec: the minimal-push encoder of the bytecode generator
(missing from the provided sources). §4.5: empty content → the single
"push empty" byte `0x00`; bytes equal to the script-number encoding of an
integer in `{-1, 1..16}` → the dedicated single-byte small-integer opcode
(`0x4f` for -1, `0x51 + (v-1)` for 1..16); 1–75 bytes otherwise →
`[length-byte][raw bytes]` (including the single zero byte, `[0x01][0x00]`);
≥76 bytes → a wider length-prefix opcode (`0x4c`/`0x4d`/`0x4e`) sized to
1/2/4 length bytes, followed by the raw bytes. -/
def encodeDataPush (data : List Nat) : List Nat :=
  if data.length ≤ 75 then
    if data.length = 0 then [0x00]
    else if data.length = 1 then
      let b := data.headD 0
      if 1 ≤ b ∧ b ≤ 16 then [0x50 + b]
      else if b = 0x81 then [0x4f]
      else [1, b]
    else data.length :: data
  else if data.length ≤ 0xff then 0x4c :: data.length :: data
  else if data.length ≤ 0xffff then
    0x4d :: data.length % 256 :: data.length / 256 :: data
  else
    0x4e :: data.length % 256 :: data.length / 256 % 256 ::
      data.length / 65536 % 256 :: data.length / 16777216 % 256 :: data

/-- Modelled from the spec: the single dedicated "push small integer" opcode
byte for an integer in `[-1, 16]` (§4.5): `OP_1NEGATE = 0x4f`, `OP_0 = 0x00`,
`OP_1 .. OP_16 = 0x51 .. 0x60`. -/
def smallIntegerOpcode (v : Int) : Nat :=
  if v = -1 then 0x4f else if v = 0 then 0x00 else 0x50 + v.toNat

mutual
/-- Modelled from the spec: the AST of the language pipeline (missing from the
provided sources). §3: "ASTNode: variant over Literal(BigInt|Hex|Utf8),
OpcodeRef, Identifier, Push(children), Evaluation(children),
Program(statements)"; opcode references, variable references and script
references are all identifiers resolved by lookup (§4.3), so they share the
`identifier` constructor here. -/
inductive ScriptNode where
  | bigIntLiteral (value : Int)
  | hexLiteral (bytes : List Nat)
  | utf8Literal (bytes : List Nat)
  | identifier (name : String)
  | push (children : ScriptNodeList)
  | evaluation (children : ScriptNodeList)

/-- A statement sequence (the spec's `Program(statements)` and the child
sequences owned by `Push` and `Evaluation`). -/
inductive ScriptNodeList where
  | nil
  | cons (head : ScriptNode) (tail : ScriptNodeList)
end

/-- A located compile error; only the message is modelled. -/
structure CompileError where
  message : String
deriving DecidableEq

mutual
/-- Modelled from the spec: resolution plus bytecode generation for one
statement (missing from the provided sources; §4.3 and §4.5). Identifier
resolution is abstracted as the environment-supplied `resolve` function
(opcode/variable/script lookup and the capability "operations" dispatch);
embedded evaluations run via the externally supplied `vm` entry point
(§4.4) and a non-successful run is an error, never treated as empty. -/
def generateNode (resolve : String → Option (List Nat))
    (vm : List Nat → Option (List Nat)) : ScriptNode → Except CompileError (List Nat)
  | .bigIntLiteral v => .ok (bigIntToScriptNumber v)
  | .hexLiteral bs => .ok bs
  | .utf8Literal bs => .ok bs
  | .identifier name =>
    match resolve name with
    | some bs => .ok bs
    | none => .error ⟨"Unknown identifier: " ++ name⟩
  | .push children =>
    match generateNodes resolve vm children with
    | .ok inner => .ok (encodeDataPush inner)
    | .error e => .error e
  | .evaluation children =>
    match generateNodes resolve vm children with
    | .ok inner =>
      match vm inner with
      | some result => .ok result
      | none => .error ⟨"Evaluation failed."⟩
    | .error e => .error e

/-- Generated bytes of a statement sequence: the concatenation, in source
order, of each statement's generated bytes (§4.5); the first error aborts. -/
def generateNodes (resolve : String → Option (List Nat))
    (vm : List Nat → Option (List Nat)) : ScriptNodeList → Except CompileError (List Nat)
  | .nil => .ok []
  | .cons n ns =>
    match generateNode resolve vm n with
    | .ok b =>
      match generateNodes resolve vm ns with
      | .ok bs => .ok (b ++ bs)
      | .error e => .error e
    | .error e => .error e
end

/-- Modelled from the spec: the token alphabet of the lexer (missing from the
provided sources). §3: "Token: a classified source fragment (identifier,
opcode name, integer literal, hex literal, string literal, bracket, comment,
whitespace)"; literal tokens carry their decoded payload. -/
inductive Token where
  | identifier (name : String)
  | bigIntLiteral (value : Int)
  | hexLiteral (bytes : List Nat)
  | utf8Literal (bytes : List Nat)
  | pushOpen
  | pushClose
  | evaluationOpen
  | evaluationClose
  | lineComment (text : String)
  | blockComment (text : String)
  | whitespace (text : String)

/-- §3: comments are removed before parsing; whitespace separates tokens and
carries no value. Every other token is significant. -/
def isSignificantToken : Token → Bool
  | .lineComment _ => false
  | .blockComment _ => false
  | .whitespace _ => false
  | _ => true

/-- Convert an accumulated (already reversed back to source order) statement
list into a `ScriptNodeList`. -/
def toNodeList : List ScriptNode → ScriptNodeList
  | [] => .nil
  | n :: ns => .cons n (toNodeList ns)

/-- The two bracket kinds tracked by the parser. -/
inductive BracketKind where
  | push
  | evaluation

/-- Modelled from the spec: the parser loop (missing from the provided
sources). §4.2: `Program := Statement*`, `Push := '<' Statement* '>'`,
`Evaluation := '$(' Statement* ')'`; unmatched brackets are a parse error.
`acc` holds the statements of the innermost open bracket in reverse;
`stack` holds the enclosing open brackets with their saved statements. -/
def parseGo : List Token → List ScriptNode → List (BracketKind × List ScriptNode) →
    Option ScriptNodeList
  | [], acc, [] => some (toNodeList acc.reverse)
  | [], _, _ :: _ => none
  | t :: ts, acc, stack =>
    match t with
    | .identifier s => parseGo ts (.identifier s :: acc) stack
    | .bigIntLiteral v => parseGo ts (.bigIntLiteral v :: acc) stack
    | .hexLiteral bs => parseGo ts (.hexLiteral bs :: acc) stack
    | .utf8Literal bs => parseGo ts (.utf8Literal bs :: acc) stack
    | .pushOpen => parseGo ts [] ((BracketKind.push, acc) :: stack)
    | .evaluationOpen => parseGo ts [] ((BracketKind.evaluation, acc) :: stack)
    | .pushClose =>
      match stack with
      | (BracketKind.push, saved) :: rest =>
        parseGo ts (.push (toNodeList acc.reverse) :: saved) rest
      | _ => none
    | .evaluationClose =>
      match stack with
      | (BracketKind.evaluation, saved) :: rest =>
        parseGo ts (.evaluation (toNodeList acc.reverse) :: saved) rest
      | _ => none
    | .lineComment _ => parseGo ts acc stack
    | .blockComment _ => parseGo ts acc stack
    | .whitespace _ => parseGo ts acc stack

/-- Modelled from the spec: `parse` (missing from the provided sources).
Comments and whitespace are removed before parsing (§3). -/
def parseScript (tokens : List Token) : Option ScriptNodeList :=
  parseGo (tokens.filter isSignificantToken) [] []

/-- The discriminated compilation result (§3 `CompilationResult`): a success
variant carrying final bytecode, or a failure variant carrying an error kind
and a list of located errors. -/
inductive CompilationResult where
  | success (bytecode : List Nat)
  | failure (errorType : String) (errors : List CompileError)

/-- Modelled from the spec: compilation of one script's token stream
(missing from the provided sources): parse, then resolve and generate
(§2 data flow); each stage's errors are collected into the failure variant. -/
def compileScriptTokens (resolve : String → Option (List Nat))
    (vm : List Nat → Option (List Nat)) (tokens : List Token) : CompilationResult :=
  match parseScript tokens with
  | none => .failure "parse" [⟨"Failed to parse script."⟩]
  | some program =>
    match generateNodes resolve vm program with
    | .ok bytecode => .success bytecode
    | .error e => .failure "resolve" [e]

/-- §3/§6 `CompilationData`: runtime-supplied values keyed by variable id,
plus the transaction-context fields referenced by the spec. -/
structure CompilationData where
  bytecode : List (String × List Nat)
  locktime : Option Int
  sequenceNumber : Option Int

/-- Association-list lookup with JavaScript object-spread semantics: a later
entry shadows an earlier entry with the same key (last wins). -/
def jsLookup {α : Type} : List (String × α) → String → Option α
  | [], _ => none
  | (k, v) :: rest, key =>
    match jsLookup rest key with
    | some r => some r
    | none => if k = key then some v else none

/-- §3 `CompilationEnvironment`: read-only mapping of opcode name → byte,
variable id → definition (kept opaque as a string), script id → source
(held at token granularity, see the module comment), entity ownership, the
"operations" dispatch abstracted as one function of
(variable id, runtime data) → bytes, and the external VM entry point. -/
structure CompilationEnvironment where
  opcodes : List (String × Nat)
  «variables» : List (String × String)
  scripts : List (String × List Token)
  entityOwnership : List (String × String)
  operations : String → CompilationData → Option (List Nat)
  vm : List Nat → Option (List Nat)

/-- Modelled from the spec: identifier resolution order (§4.3): opcode name,
then variable id (resolved through the environment's operations), then
nothing. Script-reference resolution (and its cycle detection) is not
modelled; no verified claim depends on it. -/
def resolveIdentifier (environment : CompilationEnvironment)
    (data : CompilationData) (name : String) : Option (List Nat) :=
  match jsLookup environment.opcodes name with
  | some op => some [op]
  | none =>
    match jsLookup environment.«variables» name with
    | some _ => environment.operations name data
    | none => none

/-- Modelled from the spec: `compileScript` (missing from the provided
sources; §6): look the script up in the environment's script map and run the
compilation pipeline on it; an unknown script id is reported in the failure
variant. -/
def compileScript (scriptId : String) (data : CompilationData)
    (environment : CompilationEnvironment) : CompilationResult :=
  match jsLookup environment.scripts scriptId with
  | none => .failure "parse" [⟨"No script with the ID " ++ scriptId ++ " was provided."⟩]
  | some tokens =>
    compileScriptTokens (resolveIdentifier environment data) environment.vm tokens

/-- The production (debug = false) result shape of `generateBytecode`
(`compiler.ts` lines 56–60): `{success: true, bytecode}` or
`{success: false, errorType, errors}`. -/
inductive BytecodeGenerationResult where
  | success (bytecode : List Nat)
  | failure (errorType : String) (errors : List CompileError)

/-- The full return of `generateBytecode`: the raw compilation artifact when
debug is true, the production result shape otherwise. -/
inductive GenerateBytecodeReturn where
  | debugResult (result : CompilationResult)
  | result (value : BytecodeGenerationResult)

/-- The `Compiler` record returned by `createCompiler` (`compiler.ts`
lines 40–62): the environment it was created from, and the
`generateBytecode` entry point. -/
structure Compiler where
  environment : CompilationEnvironment
  generateBytecode : String → CompilationData → Bool → GenerateBytecodeReturn

/-- `createCompiler` (`compiler.ts` lines 34–62): expose the environment and
a `generateBytecode` that runs `compileScript` and, when debug is false,
projects the result onto the discriminated success/failure value. -/
def createCompiler (compilationEnvironment : CompilationEnvironment) : Compiler :=
  { environment := compilationEnvironment,
    generateBytecode := fun scriptId data debug =>
      let result := compileScript scriptId data compilationEnvironment
      if debug then .debugResult result
      else
        match result with
        | .success bytecode => .result (.success bytecode)
        | .failure errorType errors => .result (.failure errorType errors) }

/-- One `generateBytecode` invocation on a compiler. -/
structure CompilerCall where
  scriptId : String
  data : CompilationData
  debug : Bool

/-- Run a sequence of `generateBytecode` calls against one compiler,
collecting the results in order. -/
def runCalls (compiler : Compiler) : List CompilerCall → List GenerateBytecodeReturn
  | [] => []
  | call :: rest =>
    compiler.generateBytecode call.scriptId call.data call.debug :: runCalls compiler rest

/-- A variable definition of an authentication template; its payload is
irrelevant to the derivation in `compiler.ts`, only identity matters. -/
structure AuthenticationTemplateVariable where
  type : String
deriving DecidableEq

/-- An entity of an authentication template (`template.entities[id]`); only
the `variables` property is read by the derivation, and it may be absent. -/
structure AuthenticationTemplateEntity where
  «variables» : Option (List (String × AuthenticationTemplateVariable))

/-- A script definition of an authentication template: required source plus
the optional `unlocks`, `timeLockType`, and `lockingType` declarations read
by the derivation. -/
structure AuthenticationTemplateScript where
  script : String
  unlocks : Option String
  timeLockType : Option String
  lockingType : Option String
deriving DecidableEq

/-- An `AuthenticationTemplate` as consumed by
`authenticationTemplateToCompilationEnvironment`: entity map and script map,
as association lists in enumeration order. -/
structure AuthenticationTemplate where
  entities : List (String × AuthenticationTemplateEntity)
  scripts : List (String × AuthenticationTemplateScript)

/-- A `reduce` over a list that spreads each element's contribution onto the
accumulator object — the shape of every derivation in
`authenticationTemplateToCompilationEnvironment` (`compiler.ts` 129–176). -/
def spreadFold {α β : Type} (g : α → List (String × β)) (l : List α) : List (String × β) :=
  l.foldl (fun all p => all ++ g p) []

/-- One step of the conditional reduces in `compiler.ts` 150–176: a script
entry contributes its id mapped to the declared field value when the field is
declared with a defined value, and nothing otherwise. -/
def selectScriptEntry {α β : Type} (f : α → Option β) (p : String × α) :
    List (String × β) :=
  match f p.2 with
  | some u => [(p.1, u)]
  | none => []

/-- The result of `authenticationTemplateToCompilationEnvironment`: the
`Pick`ed compilation-environment properties (`compiler.ts` 120–128). -/
structure TemplateCompilationEnvironment where
  entityOwnership : List (String × String)
  lockingScriptTypes : List (String × String)
  scripts : List (String × String)
  unlockingScriptTimeLockTypes : List (String × String)
  unlockingScripts : List (String × String)
  «variables» : List (String × AuthenticationTemplateVariable)

/-- `authenticationTemplateToCompilationEnvironment` (`compiler.ts` 118–185):
- `scripts`: script id → source, one spread per entry;
- `variables`: the entities' `variables` objects spread in order;
- `entityOwnership`: for each entity in order, each of its variable ids
  mapped to the entity id;
- `unlockingScripts` / `unlockingScriptTimeLockTypes` / `lockingScriptTypes`:
  an entry only when the script declares `unlocks` / `timeLockType` /
  `lockingType` with a defined value. -/
def authenticationTemplateToCompilationEnvironment
    (template : AuthenticationTemplate) : TemplateCompilationEnvironment :=
  { scripts := spreadFold (fun p => [(p.1, p.2.script)]) template.scripts,
    «variables» := spreadFold (fun p => p.2.«variables».getD []) template.entities,
    entityOwnership :=
      spreadFold
        (fun p => spreadFold (fun q => [(q.1, p.1)]) (p.2.«variables».getD []))
        template.entities,
    unlockingScripts :=
      spreadFold (selectScriptEntry AuthenticationTemplateScript.unlocks) template.scripts,
    unlockingScriptTimeLockTypes :=
      spreadFold (selectScriptEntry AuthenticationTemplateScript.timeLockType)
        template.scripts,
    lockingScriptTypes :=
      spreadFold (selectScriptEntry AuthenticationTemplateScript.lockingType)
        template.scripts }

/-- The overridable properties handed to `createCompilerCommonSynchronous`
(`compiler.ts` 89–106): a compilation environment whose `createState`,
`opcodes`, and `operations` may be absent, and whose `scripts` must be
present. -/
structure EnvironmentOverrides (CS OPS OPR S : Type) where
  createState : Option CS
  opcodes : Option OPS
  operations : Option OPR
  scripts : S

/-- The fully populated environment produced by the spread
`{...defaults, ...scriptsAndOverrides}` in `createCompilerCommonSynchronous`. -/
structure CommonCompilerEnvironment (CS OPS OPR S : Type) where
  createState : CS
  opcodes : OPS
  operations : OPR
  scripts : S

/-- The environment-merge step of `createCompilerCommonSynchronous`
(`compiler.ts` 98–105): spread the defaults
(`compilerCreateStateCommon`, `generateBytecodeMap(OpcodesCommon)`,
`compilerOperationsCommon` — external collaborators, passed here as the
`default*` parameters), then spread `scriptsAndOverrides` over them, so a
supplied property replaces the default. The subsequent `createCompiler` call
is modelled separately. -/
def createCompilerCommonSynchronousEnvironment {CS OPS OPR S : Type}
    (defaultCreateState : CS) (defaultOpcodes : OPS) (defaultOperations : OPR)
    (scriptsAndOverrides : EnvironmentOverrides CS OPS OPR S) :
    CommonCompilerEnvironment CS OPS OPR S :=
  { createState := scriptsAndOverrides.createState.getD defaultCreateState,
    opcodes := scriptsAndOverrides.opcodes.getD defaultOpcodes,
    operations := scriptsAndOverrides.operations.getD defaultOperations,
    scripts := scriptsAndOverrides.scripts }

/-- A two-entity template in which both entities define the variable id
`k1`; used to evaluate the derivation on a concrete input. -/
def exampleTwoEntityTemplate : AuthenticationTemplate :=
  { entities :=
      [("alice", ⟨some [("k1", ⟨"Key"⟩)]⟩), ("bob", ⟨some [("k1", ⟨"HdKey"⟩)]⟩)],
    scripts := [] }

/-- A two-script template in which `spend` declares `unlocks` but neither
time-lock nor locking type; used to evaluate the derivation on a concrete
input. -/
def exampleScriptDeclarationTemplate : AuthenticationTemplate :=
  { entities := [],
    scripts :=
      [("spend", ⟨"OP_1", some "lock", none, none⟩),
       ("lock", ⟨"OP_1", none, none, some "standard"⟩)] }

/-! ### Association-list and fold lemmas -/

theorem jsLookup_nil {α : Type} (key : String) : jsLookup ([] : List (String × α)) key = none :=
  rfl

theorem jsLookup_cons {α : Type} (k : String) (v : α) (rest : List (String × α))
    (key : String) :
    jsLookup ((k, v) :: rest) key
      = match jsLookup rest key with
        | some r => some r
        | none => if k = key then some v else none := rfl

theorem jsLookup_append_of_some {α : Type} {ys : List (String × α)} {key : String}
    {r : α} (xs : List (String × α)) (h : jsLookup ys key = some r) :
    jsLookup (xs ++ ys) key = some r := by
  induction xs with
  | nil => simpa using h
  | cons p xs ih =>
    obtain ⟨k, v⟩ := p
    rw [List.cons_append, jsLookup_cons, ih]

theorem jsLookup_append_of_none {α : Type} {ys : List (String × α)} {key : String}
    (xs : List (String × α)) (h : jsLookup ys key = none) :
    jsLookup (xs ++ ys) key = jsLookup xs key := by
  induction xs with
  | nil => simpa using h
  | cons p xs ih =>
    obtain ⟨k, v⟩ := p
    rw [List.cons_append, jsLookup_cons, ih, jsLookup_cons]

theorem mem_keys_of_jsLookup_eq_some {α : Type} {key : String} {r : α} :
    ∀ xs : List (String × α), jsLookup xs key = some r → key ∈ xs.map Prod.fst := by
  intro xs
  induction xs with
  | nil => intro h; simp [jsLookup_nil] at h
  | cons p xs ih =>
    obtain ⟨k, v⟩ := p
    intro h
    rw [jsLookup_cons] at h
    cases hrest : jsLookup xs key with
    | some q =>
      rw [hrest] at h
      have hq : q = r := by simpa using h
      exact List.mem_cons_of_mem _ (ih (hrest.trans (by rw [hq])))
    | none =>
      rw [hrest] at h
      by_cases hk : k = key
      · subst hk; exact List.mem_cons_self _ _
      · rw [if_neg hk] at h; cases h

theorem spreadFold_acc {α β : Type} (g : α → List (String × β)) :
    ∀ (l : List α) (acc : List (String × β)),
      l.foldl (fun all p => all ++ g p) acc = acc ++ spreadFold g l := by
  intro l
  induction l with
  | nil => intro acc; simp [spreadFold]
  | cons a l ih =>
    intro acc
    calc List.foldl (fun all p => all ++ g p) acc (a :: l)
        = List.foldl (fun all p => all ++ g p) (acc ++ g a) l := rfl
      _ = (acc ++ g a) ++ spreadFold g l := ih (acc ++ g a)
      _ = acc ++ (g a ++ spreadFold g l) := List.append_assoc acc (g a) (spreadFold g l)
      _ = acc ++ List.foldl (fun all p => all ++ g p) (g a) l := by rw [ih (g a)]
      _ = acc ++ spreadFold g (a :: l) := rfl

theorem spreadFold_cons {α β : Type} (g : α → List (String × β)) (a : α) (l : List α) :
    spreadFold g (a :: l) = g a ++ spreadFold g l := by
  simp only [spreadFold, List.foldl_cons, List.nil_append]
  exact spreadFold_acc g l (g a)

theorem spreadFold_append {α β : Type} (g : α → List (String × β)) (l1 l2 : List α) :
    spreadFold g (l1 ++ l2) = spreadFold g l1 ++ spreadFold g l2 := by
  induction l1 with
  | nil => simp [spreadFold]
  | cons a l ih => simp [spreadFold_cons, ih, List.append_assoc]

theorem jsLookup_spreadFold_none {α β : Type} (g : α → List (String × β)) (l : List α)
    (key : String) (h : ∀ p ∈ l, jsLookup (g p) key = none) :
    jsLookup (spreadFold g l) key = none := by
  induction l with
  | nil => rfl
  | cons a l ih =>
    rw [spreadFold_cons,
      jsLookup_append_of_none (g a) (ih (fun p hp => h p (List.mem_cons_of_mem a hp)))]
    exact h a (List.mem_cons_self a l)

theorem jsLookup_spreadFold_keyTag {α : Type} (c : String) (l : List (String × α))
    (key : String) :
    jsLookup (spreadFold (fun q => [(q.1, c)]) l) key = (jsLookup l key).map fun _ => c := by
  induction l with
  | nil => rfl
  | cons q l ih =>
    obtain ⟨k, d⟩ := q
    rw [spreadFold_cons]
    cases h : jsLookup l key with
    | some d0 =>
      have hs : jsLookup (spreadFold (fun q => [(q.1, c)]) l) key = some c := by
        rw [ih, h]; rfl
      rw [jsLookup_append_of_some _ hs, jsLookup_cons, h]
      rfl
    | none =>
      have hs : jsLookup (spreadFold (fun q => [(q.1, c)]) l) key = none := by
        rw [ih, h]; rfl
      rw [jsLookup_append_of_none _ hs]
      show (if k = key then some c else none)
        = Option.map (fun _ => c) (jsLookup ((k, d) :: l) key)
      rw [jsLookup_cons, h]
      show (if k = key then some c else none)
        = Option.map (fun _ => c) (if k = key then some d else none)
      by_cases hk : k = key <;> simp [hk]

theorem runCalls_append (compiler : Compiler) (xs ys : List CompilerCall) :
    runCalls compiler (xs ++ ys) = runCalls compiler xs ++ runCalls compiler ys := by
  induction xs with
  | nil => rfl
  | cons c xs ih => simp [runCalls, ih]

/-! ### Claim theorems: the compiler façade -/

/-- Claim C1: for every scriptId and data, a `generateBytecode` call with
debug = false returns a discriminated value that is either
success-with-bytecode or failure-with-errorType-and-errors, and the compile
errors of the underlying `compileScript` run are delivered inside the failure
value (never thrown across the compilation boundary, which in this total
embedding means `generateBytecode` is a total function into the discriminated
result type). -/
theorem generateBytecode_discriminated (env : CompilationEnvironment)
    (scriptId : String) (data : CompilationData) :
    (∃ bytecode, (createCompiler env).generateBytecode scriptId data false
        = .result (.success bytecode)
      ∧ compileScript scriptId data env = .success bytecode)
    ∨ ∃ errorType errors, (createCompiler env).generateBytecode scriptId data false
        = .result (.failure errorType errors)
      ∧ compileScript scriptId data env = .failure errorType errors := by
  cases h : compileScript scriptId data env with
  | success bytecode => exact Or.inl ⟨bytecode, by simp [createCompiler, h], rfl⟩
  | failure errorType errors =>
    exact Or.inr ⟨errorType, errors, by simp [createCompiler, h], rfl⟩

/-- Claim C2: `generateBytecode` is deterministic — in any sequence of calls
on a compiler created from one environment, two calls with the same scriptId
and the same data produce the identical result (both occurrences below are
the very same value), with no hidden state between calls. -/
theorem generateBytecode_deterministic (env : CompilationEnvironment)
    (scriptId : String) (data : CompilationData) (xs ys zs : List CompilerCall) :
    runCalls (createCompiler env)
        (xs ++ ⟨scriptId, data, false⟩ :: ys ++ ⟨scriptId, data, false⟩ :: zs)
      = runCalls (createCompiler env) xs
        ++ (createCompiler env).generateBytecode scriptId data false
          :: (runCalls (createCompiler env) ys
            ++ (createCompiler env).generateBytecode scriptId data false
              :: runCalls (createCompiler env) zs) := by
  simp [runCalls_append, runCalls]

/-- Claim C9: the compiler never mutates its environment: the compiler's
`environment` field is exactly the environment passed to `createCompiler`
(with all its maps unchanged), and after any sequence of `generateBytecode`
calls each result is the one determined by re-creating the compiler from that
same unchanged environment — no call leaves any state behind. (The source is
purely functional; immutability is inherited by this embedding, in which the
environment is a value that no operation rebinds.) -/
theorem createCompiler_environment_immutable (env : CompilationEnvironment)
    (calls : List CompilerCall) :
    (createCompiler env).environment = env
    ∧ ((createCompiler env).environment).opcodes = env.opcodes
    ∧ ((createCompiler env).environment).operations = env.operations
    ∧ ((createCompiler env).environment).scripts = env.scripts
    ∧ ((createCompiler env).environment).«variables» = env.«variables»
    ∧ ((createCompiler env).environment).entityOwnership = env.entityOwnership
    ∧ runCalls (createCompiler env) calls
        = calls.map fun call =>
            (createCompiler (createCompiler env).environment).generateBytecode
              call.scriptId call.data call.debug := by
  refine ⟨rfl, rfl, rfl, rfl, rfl, rfl, ?_⟩
  induction calls with
  | nil => rfl
  | cons c rest ih =>
    simp only [runCalls, List.map_cons]
    rw [ih]
    rfl

/-- Claim C10: in the `createCompilerCommonSynchronous` environment merge,
every supplied property overrides the corresponding default: a `createState`,
`opcodes`, or `operations` present in scriptsAndOverrides replaces the common
default, and each one not supplied keeps its default. -/
theorem createCompilerCommonSynchronous_overrides {CS OPS OPR S : Type}
    (defaultCreateState : CS) (defaultOpcodes : OPS) (defaultOperations : OPR)
    (scriptsAndOverrides : EnvironmentOverrides CS OPS OPR S) :
    (∀ v, scriptsAndOverrides.createState = some v →
      (createCompilerCommonSynchronousEnvironment defaultCreateState defaultOpcodes
        defaultOperations scriptsAndOverrides).createState = v)
    ∧ (scriptsAndOverrides.createState = none →
      (createCompilerCommonSynchronousEnvironment defaultCreateState defaultOpcodes
        defaultOperations scriptsAndOverrides).createState = defaultCreateState)
    ∧ (∀ v, scriptsAndOverrides.opcodes = some v →
      (createCompilerCommonSynchronousEnvironment defaultCreateState defaultOpcodes
        defaultOperations scriptsAndOverrides).opcodes = v)
    ∧ (scriptsAndOverrides.opcodes = none →
      (createCompilerCommonSynchronousEnvironment defaultCreateState defaultOpcodes
        defaultOperations scriptsAndOverrides).opcodes = defaultOpcodes)
    ∧ (∀ v, scriptsAndOverrides.operations = some v →
      (createCompilerCommonSynchronousEnvironment defaultCreateState defaultOpcodes
        defaultOperations scriptsAndOverrides).operations = v)
    ∧ (scriptsAndOverrides.operations = none →
      (createCompilerCommonSynchronousEnvironment defaultCreateState defaultOpcodes
        defaultOperations scriptsAndOverrides).operations = defaultOperations) := by
  refine ⟨fun v h => ?_, fun h => ?_, fun v h => ?_, fun h => ?_, fun v h => ?_, fun h => ?_⟩ <;>
    simp [createCompilerCommonSynchronousEnvironment, h]

/-- Witness for C10: with defaults 1, 2, 3, overrides supplying createState 7
and operations 9 replace those defaults while the unsupplied opcodes keeps
default 2. -/
theorem createCompilerCommonSynchronous_overrides_witness :
    (createCompilerCommonSynchronousEnvironment 1 2 3
      (⟨some 7, none, some 9, 0⟩ : EnvironmentOverrides Nat Nat Nat Nat)).createState = 7
    ∧ (createCompilerCommonSynchronousEnvironment 1 2 3
      (⟨some 7, none, some 9, 0⟩ : EnvironmentOverrides Nat Nat Nat Nat)).opcodes = 2
    ∧ (createCompilerCommonSynchronousEnvironment 1 2 3
      (⟨some 7, none, some 9, 0⟩ : EnvironmentOverrides Nat Nat Nat Nat)).operations = 9 := by
  obtain ⟨h1, _, _, h4, h5, _⟩ :=
    createCompilerCommonSynchronous_overrides 1 2 3
      (⟨some 7, none, some 9, 0⟩ : EnvironmentOverrides Nat Nat Nat Nat)
  exact ⟨h1 7 rfl, h4 rfl, h5 9 rfl⟩

/-! ### Claim theorems: template-to-environment derivation -/

theorem selectScriptEntry_mk {α β : Type} (f : α → Option β) (k : String) (d : α) :
    selectScriptEntry f (k, d) = match f d with | some u => [(k, u)] | none => [] := rfl

theorem jsLookup_spreadFold_select {α β : Type} (f : α → Option β) :
    ∀ l : List (String × α), (l.map Prod.fst).Nodup → ∀ key : String,
      jsLookup (spreadFold (selectScriptEntry f) l) key = (jsLookup l key).bind f := by
  intro l
  induction l with
  | nil => intro _ key; rfl
  | cons p l ih =>
    obtain ⟨k, d⟩ := p
    intro hnd key
    have hk : k ∉ l.map Prod.fst := (List.nodup_cons.mp hnd).1
    have ihl := ih (List.nodup_cons.mp hnd).2
    rw [spreadFold_cons]
    cases h : jsLookup l key with
    | some d0 =>
      have hkk : k ≠ key := fun he => hk (he ▸ mem_keys_of_jsLookup_eq_some l h)
      have hs : jsLookup (spreadFold (selectScriptEntry f) l) key = f d0 := by
        rw [ihl key, h]; rfl
      cases hf : f d0 with
      | some u =>
        rw [jsLookup_append_of_some _ (hs.trans hf), jsLookup_cons, h]
        show some u = f d0
        exact hf.symm
      | none =>
        rw [jsLookup_append_of_none _ (hs.trans hf), jsLookup_cons, h, selectScriptEntry_mk]
        cases hfd : f d with
        | some u =>
          show (if k = key then some u else none) = f d0
          rw [if_neg hkk, hf]
        | none =>
          show (none : Option β) = f d0
          exact hf.symm
    | none =>
      have hs : jsLookup (spreadFold (selectScriptEntry f) l) key = none := by
        rw [ihl key, h]; rfl
      rw [jsLookup_append_of_none _ hs, jsLookup_cons, h, selectScriptEntry_mk]
      by_cases hkk : k = key
      · subst hkk
        cases hfd : f d with
        | some u =>
          show (if k = k then some u else none) = (if k = k then some d else none).bind f
          rw [if_pos rfl, if_pos rfl]
          show some u = f d
          exact hfd.symm
        | none =>
          show (none : Option β) = (if k = k then some d else none).bind f
          rw [if_pos rfl]
          show (none : Option β) = f d
          exact hfd.symm
      · cases hfd : f d with
        | some u =>
          show (if k = key then some u else none) = (if k = key then some d else none).bind f
          rw [if_neg hkk, if_neg hkk]
          rfl
        | none =>
          show (none : Option β) = (if k = key then some d else none).bind f
          rw [if_neg hkk]
          rfl

/-- Claim C7: in the derived environment, when two entities define the same
variable id (here the entities at positions surrounding `bs`, with no
later-enumerated entity in `cs` defining it), the later-enumerated entity
wins on both maps: `variables` holds the later entity's definition and
`entityOwnership` names the later entity. -/
theorem authenticationTemplate_later_entity_wins
    (scripts : List (String × AuthenticationTemplateScript))
    (as bs cs : List (String × AuthenticationTemplateEntity))
    (id1 id2 varId : String) (e1 e2 : AuthenticationTemplateEntity)
    (d1 d2 : AuthenticationTemplateVariable)
    (_h1 : jsLookup (e1.«variables».getD []) varId = some d1)
    (h2 : jsLookup (e2.«variables».getD []) varId = some d2)
    (h3 : ∀ p ∈ cs, jsLookup (p.2.«variables».getD []) varId = none) :
    jsLookup (authenticationTemplateToCompilationEnvironment
        ⟨as ++ (id1, e1) :: bs ++ (id2, e2) :: cs, scripts⟩).«variables» varId = some d2
    ∧ jsLookup (authenticationTemplateToCompilationEnvironment
        ⟨as ++ (id1, e1) :: bs ++ (id2, e2) :: cs, scripts⟩).entityOwnership varId
      = some id2 := by
  constructor
  · show jsLookup (spreadFold (fun p => p.2.«variables».getD [])
        (as ++ (id1, e1) :: bs ++ (id2, e2) :: cs)) varId = some d2
    rw [spreadFold_append, spreadFold_cons, spreadFold_append, spreadFold_cons]
    have hcs : jsLookup (spreadFold (fun p => p.2.«variables».getD []) cs) varId = none :=
      jsLookup_spreadFold_none _ cs varId h3
    have hz : jsLookup ((id2, e2).2.«variables».getD []
        ++ spreadFold (fun p => p.2.«variables».getD []) cs) varId = some d2 :=
      (jsLookup_append_of_none _ hcs).trans h2
    exact jsLookup_append_of_some _ hz
  · show jsLookup (spreadFold
        (fun p => spreadFold (fun q => [(q.1, p.1)]) (p.2.«variables».getD []))
        (as ++ (id1, e1) :: bs ++ (id2, e2) :: cs)) varId = some id2
    rw [spreadFold_append, spreadFold_cons, spreadFold_append, spreadFold_cons]
    have hcs : jsLookup (spreadFold
        (fun p => spreadFold (fun q => [(q.1, p.1)]) (p.2.«variables».getD [])) cs) varId
        = none := by
      refine jsLookup_spreadFold_none _ cs varId fun p hp => ?_
      rw [jsLookup_spreadFold_keyTag, h3 p hp]
      rfl
    have h2own : jsLookup
        (spreadFold (fun q => [(q.1, (id2, e2).1)]) ((id2, e2).2.«variables».getD []))
        varId = some id2 := by
      rw [jsLookup_spreadFold_keyTag]
      show Option.map (fun _ => id2) (jsLookup (e2.«variables».getD []) varId) = some id2
      rw [h2]
      rfl
    have hz : jsLookup
        (spreadFold (fun q => [(q.1, (id2, e2).1)]) ((id2, e2).2.«variables».getD [])
          ++ spreadFold
            (fun p => spreadFold (fun q => [(q.1, p.1)]) (p.2.«variables».getD [])) cs)
        varId = some id2 :=
      (jsLookup_append_of_none _ hcs).trans h2own
    exact jsLookup_append_of_some _ hz

/-- Witness for C7: in a template where entities `alice` then `bob` both
define variable id `k1`, the derived maps hold `bob`'s definition and name
`bob` as owner. -/
theorem authenticationTemplate_later_entity_wins_witness :
    jsLookup (authenticationTemplateToCompilationEnvironment
        exampleTwoEntityTemplate).«variables» "k1" = some ⟨"HdKey"⟩
    ∧ jsLookup (authenticationTemplateToCompilationEnvironment
        exampleTwoEntityTemplate).entityOwnership "k1" = some "bob" :=
  authenticationTemplate_later_entity_wins [] [] [] [] "alice" "bob" "k1"
    ⟨some [("k1", ⟨"Key"⟩)]⟩ ⟨some [("k1", ⟨"HdKey"⟩)]⟩ ⟨"Key"⟩ ⟨"HdKey"⟩
    (by decide) (by decide) (fun p hp => absurd hp (List.not_mem_nil p))

/-- Claim C8: the derived `unlockingScripts`, `unlockingScriptTimeLockTypes`,
and `lockingScriptTypes` maps contain an entry for a script id exactly when
that script's definition declares `unlocks` / `timeLockType` / `lockingType`
with a defined value (and then the entry carries that value); scripts not
declaring the field contribute no entry. Script ids of a template object are
distinct, expressed by the `Nodup` hypothesis on the key list. -/
theorem authenticationTemplate_script_declaration_maps
    (template : AuthenticationTemplate) (scriptId : String)
    (hnd : (template.scripts.map Prod.fst).Nodup) :
    jsLookup (authenticationTemplateToCompilationEnvironment template).unlockingScripts
        scriptId
      = (jsLookup template.scripts scriptId).bind AuthenticationTemplateScript.unlocks
    ∧ jsLookup
        (authenticationTemplateToCompilationEnvironment template).unlockingScriptTimeLockTypes
        scriptId
      = (jsLookup template.scripts scriptId).bind AuthenticationTemplateScript.timeLockType
    ∧ jsLookup (authenticationTemplateToCompilationEnvironment template).lockingScriptTypes
        scriptId
      = (jsLookup template.scripts scriptId).bind AuthenticationTemplateScript.lockingType :=
  ⟨jsLookup_spreadFold_select AuthenticationTemplateScript.unlocks template.scripts hnd
      scriptId,
   jsLookup_spreadFold_select AuthenticationTemplateScript.timeLockType template.scripts hnd
      scriptId,
   jsLookup_spreadFold_select AuthenticationTemplateScript.lockingType template.scripts hnd
      scriptId⟩

/-- Witness for C8: in a template whose script `spend` declares only
`unlocks`, the derived maps have an `unlockingScripts` entry for `spend` and
no time-lock or locking-type entry for it. -/
theorem authenticationTemplate_script_declaration_maps_witness :
    jsLookup (authenticationTemplateToCompilationEnvironment
        exampleScriptDeclarationTemplate).unlockingScripts "spend" = some "lock"
    ∧ jsLookup (authenticationTemplateToCompilationEnvironment
        exampleScriptDeclarationTemplate).unlockingScriptTimeLockTypes "spend" = none
    ∧ jsLookup (authenticationTemplateToCompilationEnvironment
        exampleScriptDeclarationTemplate).lockingScriptTypes "spend" = none := by
  obtain ⟨ha, hb, hc⟩ :=
    authenticationTemplate_script_declaration_maps exampleScriptDeclarationTemplate "spend"
      (by decide)
  exact ⟨ha.trans (by decide), hb.trans (by decide), hc.trans (by decide)⟩

/-! ### Script-number and push-encoding lemmas -/

theorem natToLEBytesAux_congr :
    ∀ f1 f2 n : Nat, n ≤ f1 → n ≤ f2 → natToLEBytesAux f1 n = natToLEBytesAux f2 n := by
  intro f1
  induction f1 with
  | zero =>
    intro f2 n h1 _
    have hn : n = 0 := Nat.le_zero.mp h1
    subst hn
    cases f2 <;> simp [natToLEBytesAux]
  | succ f1 ih =>
    intro f2 n h1 h2
    by_cases hn : n = 0
    · subst hn
      cases f2 <;> simp [natToLEBytesAux]
    · cases f2 with
      | zero => exact absurd (Nat.le_zero.mp h2) hn
      | succ f2 =>
        have hd : n / 256 < n := Nat.div_lt_self (Nat.pos_of_ne_zero hn) (by norm_num)
        simp only [natToLEBytesAux, if_neg hn]
        rw [ih f2 (n / 256) (by omega) (by omega)]

theorem natToLEBytes_eq (n : Nat) :
    natToLEBytes n = if n = 0 then [] else n % 256 :: natToLEBytes (n / 256) := by
  cases n with
  | zero => rfl
  | succ m =>
    have hd : (m + 1) / 256 < m + 1 := Nat.div_lt_self (by omega) (by norm_num)
    simp only [natToLEBytes, natToLEBytesAux, if_neg (by omega : ¬m + 1 = 0)]
    rw [natToLEBytesAux_congr m ((m + 1) / 256) ((m + 1) / 256) (by omega) (le_refl _)]

theorem natToLEBytes_eq_nil_iff (n : Nat) : natToLEBytes n = [] ↔ n = 0 := by
  constructor
  · intro h
    by_contra hn
    rw [natToLEBytes_eq, if_neg hn] at h
    exact absurd h (List.cons_ne_nil _ _)
  · intro h
    subst h
    rfl

theorem natToLEBytes_singleton {n b : Nat} (h : natToLEBytes n = [b]) :
    b = n ∧ 0 < n ∧ n < 256 := by
  rw [natToLEBytes_eq] at h
  by_cases hn : n = 0
  · simp [hn] at h
  · rw [if_neg hn] at h
    have h1 : n % 256 = b ∧ natToLEBytes (n / 256) = [] := by
      constructor
      · exact (List.cons.injEq _ _ _ _ ▸ h).1
      · exact (List.cons.injEq _ _ _ _ ▸ h).2
    have h2 : n / 256 = 0 := (natToLEBytes_eq_nil_iff _).mp h1.2
    have h3 : n < 256 := (Nat.div_eq_zero_iff (by norm_num)).mp h2
    refine ⟨?_, Nat.pos_of_ne_zero hn, h3⟩
    rw [← h1.1, Nat.mod_eq_of_lt h3]

theorem bigIntToScriptNumber_ne_nil {v : Int} (h : v ≠ 0) : bigIntToScriptNumber v ≠ [] := by
  have hm : natToLEBytes v.natAbs ≠ [] := by
    rw [Ne, natToLEBytes_eq_nil_iff]
    simpa using h
  unfold bigIntToScriptNumber
  rw [if_neg h]
  split_ifs <;> simp [hm]

theorem bigIntToScriptNumber_singleton_not_small {v : Int} {b : Nat}
    (hout : v < -1 ∨ 16 < v) (h : bigIntToScriptNumber v = [b]) :
    ¬(1 ≤ b ∧ b ≤ 16) ∧ b ≠ 0x81 := by
  have hv0 : v ≠ 0 := by rcases hout with ho | ho <;> omega
  have hmne : natToLEBytes v.natAbs ≠ [] := by
    rw [Ne, natToLEBytes_eq_nil_iff]
    simpa using hv0
  unfold bigIntToScriptNumber at h
  rw [if_neg hv0] at h
  cases hm : natToLEBytes v.natAbs with
  | nil => exact absurd hm hmne
  | cons m0 rest =>
    cases rest with
    | nil =>
      obtain ⟨hm0b, hm0pos, hm0lt⟩ := natToLEBytes_singleton hm
      rw [hm] at h
      by_cases hbig : (0x80 : Nat) ≤ m0
      · rw [if_pos (show (0x80 : Nat) ≤ ([m0].getLastD 0) from hbig)] at h
        have hl := congrArg List.length h
        simp only [List.length_append, List.length_cons, List.length_nil] at hl
        omega
      · rw [if_neg (show ¬(0x80 : Nat) ≤ ([m0].getLastD 0) from hbig)] at h
        by_cases hneg : v < 0
        · rw [if_pos hneg] at h
          have hb : m0 + 0x80 = b := by simpa using h
          have hv1 : v < -1 := by rcases hout with ho | ho; exact ho; omega
          have hm0ge : 2 ≤ m0 := by omega
          refine ⟨fun hc => ?_, ?_⟩ <;> omega
        · rw [if_neg hneg] at h
          have hb : m0 = b := by simpa using h
          have hv16 : 16 < v := by rcases hout with ho | ho; omega; exact ho
          have hge : 17 ≤ m0 := by omega
          have hlt : m0 < 0x80 := by omega
          refine ⟨fun hc => ?_, ?_⟩ <;> omega
    | cons m1 rest2 =>
      exfalso
      rw [hm] at h
      have hlen := congrArg List.length h
      split_ifs at hlen <;>
        (simp only [List.length_append, List.length_cons, List.length_nil,
          List.length_dropLast] at hlen; omega)

theorem encodeDataPush_single {b : Nat} (hb : ¬(1 ≤ b ∧ b ≤ 16)) (hb2 : b ≠ 0x81) :
    encodeDataPush [b] = [1, b] := by
  unfold encodeDataPush
  simp [hb, hb2]

theorem encodeDataPush_long {d : List Nat} (h2 : 2 ≤ d.length) (h75 : d.length ≤ 75) :
    encodeDataPush d = d.length :: d := by
  unfold encodeDataPush
  rw [if_pos h75, if_neg (by omega), if_neg (by omega)]

theorem compileScriptTokens_push_bigInt (resolve : String → Option (List Nat))
    (vm : List Nat → Option (List Nat)) (v : Int) :
    compileScriptTokens resolve vm [.pushOpen, .bigIntLiteral v, .pushClose]
      = .success (encodeDataPush (bigIntToScriptNumber v)) := by
  have h : compileScriptTokens resolve vm [.pushOpen, .bigIntLiteral v, .pushClose]
      = .success (encodeDataPush (bigIntToScriptNumber v ++ []) ++ []) := rfl
  simpa using h

/-! ### Claim theorems: the script language -/

/-- Claim C3 (amended): for every integer v with -1 ≤ v ≤ 16, compiling the
script `<v>` yields the single dedicated small-integer opcode byte for v; for
every integer v outside that range WHOSE MINIMAL SIGNED ENCODING OCCUPIES AT
MOST 75 BYTES, compiling `<v>` yields a length byte N followed by the minimal
signed script-number encoding of v. (The added bound is forced: a longer
encoding is emitted behind a wider length-prefix opcode, §4.5.) -/
theorem compile_push_bigint_minimization (resolve : String → Option (List Nat))
    (vm : List Nat → Option (List Nat)) (v : Int) :
    (-1 ≤ v → v ≤ 16 →
      compileScriptTokens resolve vm [.pushOpen, .bigIntLiteral v, .pushClose]
        = .success [smallIntegerOpcode v])
    ∧ ((v < -1 ∨ 16 < v) → (bigIntToScriptNumber v).length ≤ 75 →
      compileScriptTokens resolve vm [.pushOpen, .bigIntLiteral v, .pushClose]
        = .success ((bigIntToScriptNumber v).length :: bigIntToScriptNumber v)) := by
  constructor
  · intro hlo hhi
    rw [compileScriptTokens_push_bigInt]
    simp only [CompilationResult.success.injEq]
    interval_cases v <;> decide
  · intro hout hlen
    rw [compileScriptTokens_push_bigInt]
    simp only [CompilationResult.success.injEq]
    have hv0 : v ≠ 0 := by rcases hout with ho | ho <;> omega
    cases hd : bigIntToScriptNumber v with
    | nil => exact absurd hd (bigIntToScriptNumber_ne_nil hv0)
    | cons b rest =>
      cases rest with
      | nil =>
        obtain ⟨hb1, hb2⟩ := bigIntToScriptNumber_singleton_not_small hout hd
        rw [encodeDataPush_single hb1 hb2]
        rfl
      | cons b2 rest2 =>
        rw [hd] at hlen
        exact encodeDataPush_long (by simp) hlen

set_option maxRecDepth 20000 in
/-- Counterexample for C3 as frozen: the claim quantifies over EVERY integer
outside [-1, 16], but at v = 2^608 the minimal signed encoding is 77 bytes
long, so the compiled push is 0x4c (a wider length-prefix opcode) followed by
the length byte and the bytes — not a bare length byte followed by the
encoding. -/
theorem compile_push_bigint_minimization_cex :
    compileScriptTokens (fun _ => none) (fun _ => none)
        [.pushOpen, .bigIntLiteral (2 ^ 608), .pushClose]
      ≠ .success
          ((bigIntToScriptNumber (2 ^ 608)).length :: bigIntToScriptNumber (2 ^ 608)) := by
  intro heq
  have h : compileScriptTokens (fun _ => none) (fun _ => none)
      [.pushOpen, .bigIntLiteral (2 ^ 608), .pushClose]
      = .success (0x4c :: 77 :: bigIntToScriptNumber (2 ^ 608)) := rfl
  have hlen : (bigIntToScriptNumber (2 ^ 608)).length = 77 := by decide
  rw [h, hlen] at heq
  injection heq with hinj
  rw [List.cons.injEq] at hinj
  exact absurd hinj.1 (by norm_num)

/-- Witness for C3 (amended): `<5>` compiles to the dedicated opcode 0x55 and
`<17>` compiles to a length byte followed by the one-byte encoding 0x11. -/
theorem compile_push_bigint_minimization_witness :
    compileScriptTokens (fun _ => none) (fun _ => none)
        [.pushOpen, .bigIntLiteral 5, .pushClose] = .success [smallIntegerOpcode 5]
    ∧ compileScriptTokens (fun _ => none) (fun _ => none)
        [.pushOpen, .bigIntLiteral 17, .pushClose]
      = .success ((bigIntToScriptNumber 17).length :: bigIntToScriptNumber 17) :=
  ⟨(compile_push_bigint_minimization (fun _ => none) (fun _ => none) 5).1
      (by decide) (by decide),
   (compile_push_bigint_minimization (fun _ => none) (fun _ => none) 17).2
      (Or.inr (by decide)) (by decide)⟩

/-- Claim C4: compiling the script `<0x00>` yields exactly the two bytes
0x01 0x00 — a push of the single zero byte is length-prefixed, excluded from
both the empty-push and the small-integer minimizations. -/
theorem compile_push_single_zero_byte (resolve : String → Option (List Nat))
    (vm : List Nat → Option (List Nat)) :
    compileScriptTokens resolve vm [.pushOpen, .hexLiteral [0x00], .pushClose]
      = .success [0x01, 0x00] := rfl

/-- Claim C5: push minimization applies independently at each nesting level,
innermost first: `<<<<1>>>>` compiles to exactly 0x03 0x02 0x01 0x51 — the
innermost push of 1 collapses to the small-integer opcode and each enclosing
push length-prefixes its child's bytes. -/
theorem compile_nested_pushes (resolve : String → Option (List Nat))
    (vm : List Nat → Option (List Nat)) :
    compileScriptTokens resolve vm
        [.pushOpen, .pushOpen, .pushOpen, .pushOpen, .bigIntLiteral 1,
          .pushClose, .pushClose, .pushClose, .pushClose]
      = .success [0x03, 0x02, 0x01, 0x51] := rfl

/-- Claim C6: comments are semantically inert — inserting (equivalently,
reading right to left, removing) a line comment or a block comment at any
position of a script's token stream leaves the compilation result, and hence
the compiled bytecode, unchanged. -/
theorem comments_are_inert (resolve : String → Option (List Nat))
    (vm : List Nat → Option (List Nat)) (xs ys : List Token) (text : String) :
    compileScriptTokens resolve vm (xs ++ Token.lineComment text :: ys)
        = compileScriptTokens resolve vm (xs ++ ys)
    ∧ compileScriptTokens resolve vm (xs ++ Token.blockComment text :: ys)
        = compileScriptTokens resolve vm (xs ++ ys) := by
  constructor <;>
    · unfold compileScriptTokens parseScript
      rw [List.filter_append, List.filter_append, List.filter_cons]
      simp [isSignificantToken]
